import Mathlib

/-!
Verification development for `autograde_metrics.py`, a script that loads a
purchase-orders CSV, a deliveries CSV and a predictions CSV, left-joins
purchase orders with deliveries on `order_id`, keeps rows with
`cancelled == 0`, fills missing `late_delivery` labels with 0, inner-joins
the result with the predictions on `order_id`, prints the merged row count
and then prints PR-AUC, ROC-AUC, F1@0.5 and F1@top20%.

The script is embedded shallowly: each pandas table is a `List` of typed
rows, dates are integers (the claims never inspect date values, only their
presence), nullable CSV cells are `Option`, and the sklearn metrics are
given by their standard closed-form definitions over rational scores.
-/

namespace Autograde

/-- A row of the purchase-orders CSV (`pd.read_csv(args.po, parse_dates=[...])`).
`cancelled` is `Option ℚ` because a CSV cell can be empty, which pandas
loads as NaN; `cancelled == 1` rows are dropped later. -/
structure PORow where
  order_id : ℤ
  order_date : ℤ
  promised_date : ℤ
  cancelled : Option ℚ
deriving DecidableEq, Repr

/-- A row of the deliveries CSV (`pd.read_csv(args.labels, parse_dates=[...])`).
`late_delivery` is nullable. -/
structure DelivRow where
  order_id : ℤ
  actual_delivery_date : Option ℤ
  late_delivery : Option ℚ
deriving DecidableEq, Repr

/-- A row of the predictions CSV (columns `order_id`, `p_late`). -/
structure PredRow where
  order_id : ℤ
  p_late : ℚ
deriving DecidableEq, Repr

/-- A row of `df = po.merge(deliv, on='order_id', how='left')`: purchase-order
fields plus delivery fields, the latter null when no delivery matched. -/
structure JoinedRow where
  order_id : ℤ
  order_date : ℤ
  promised_date : ℤ
  cancelled : Option ℚ
  actual_delivery_date : Option ℤ
  late_delivery : Option ℚ
deriving DecidableEq, Repr

/-- A joined row after `df['late_delivery'] = df['late_delivery'].fillna(0).astype(int)`:
the label is now a definite integer. -/
structure LabeledRow where
  order_id : ℤ
  order_date : ℤ
  promised_date : ℤ
  cancelled : Option ℚ
  actual_delivery_date : Option ℤ
  late_delivery : ℤ
deriving DecidableEq, Repr

/-- A row of `m = df.merge(pred, on='order_id', how='inner')`. -/
structure MergedRow where
  order_id : ℤ
  order_date : ℤ
  promised_date : ℤ
  cancelled : Option ℚ
  actual_delivery_date : Option ℤ
  late_delivery : ℤ
  p_late : ℚ
deriving DecidableEq, Repr

/-- numpy `astype(int)` on a float value: truncation toward zero. -/
def astypeInt (q : ℚ) : ℤ :=
  if 0 ≤ q.num then ((q.num.natAbs / q.den : ℕ) : ℤ) else -((q.num.natAbs / q.den : ℕ) : ℤ)

/-- `po.merge(deliv, on='order_id', how='left')`: every purchase-order row is
kept; each matching delivery row produces one output row, and a purchase
order with no matching delivery produces a single row with null delivery
fields. -/
def leftJoin (po : List PORow) (dl : List DelivRow) : List JoinedRow :=
  po.flatMap fun p =>
    match dl.filter fun d => d.order_id = p.order_id with
    | [] => [⟨p.order_id, p.order_date, p.promised_date, p.cancelled, none, none⟩]
    | d :: ds => (d :: ds).map fun d' =>
        ⟨p.order_id, p.order_date, p.promised_date, p.cancelled,
          d'.actual_delivery_date, d'.late_delivery⟩

/-- `df.query('cancelled == 0')`: keeps exactly the rows whose `cancelled`
value compares equal to 0.  A NaN (null) cell compares unequal to 0 in
pandas, so such rows are dropped. -/
def filterCancelled (df : List JoinedRow) : List JoinedRow :=
  df.filter fun r => r.cancelled = some 0

/-- `df['late_delivery'] = df['late_delivery'].fillna(0).astype(int)` on one row. -/
def fillRow (r : JoinedRow) : LabeledRow :=
  ⟨r.order_id, r.order_date, r.promised_date, r.cancelled, r.actual_delivery_date,
    astypeInt (r.late_delivery.getD 0)⟩

/-- The label-fill step applied to the whole table. -/
def fillLabel (df : List JoinedRow) : List LabeledRow :=
  df.map fillRow

/-- `df.merge(pred, on='order_id', how='inner')`: every matching pair of rows
is emitted (fan-out join). -/
def mergeInner (df : List LabeledRow) (pred : List PredRow) : List MergedRow :=
  df.flatMap fun r =>
    (pred.filter fun p => p.order_id = r.order_id).map fun p =>
      ⟨r.order_id, r.order_date, r.promised_date, r.cancelled, r.actual_delivery_date,
        r.late_delivery, p.p_late⟩

/-- The whole table pipeline before the predictions merge. -/
def labeledTable (po : List PORow) (dl : List DelivRow) : List LabeledRow :=
  fillLabel (filterCancelled (leftJoin po dl))

/-- The merged table `m` the metrics are computed on. -/
def mergedTable (po : List PORow) (dl : List DelivRow) (pred : List PredRow) :
    List MergedRow :=
  mergeInner (labeledTable po dl) pred

/-! ### Metrics (sklearn calls, embedded by their standard definitions) -/

/-- The `p_late` column of the merged table. -/
def scores (m : List MergedRow) : List ℚ :=
  m.map fun r => r.p_late

/-- Scores of the positive rows (`late_delivery == 1`). -/
def posScores (m : List MergedRow) : List ℚ :=
  (m.filter fun r => r.late_delivery = 1).map fun r => r.p_late

/-- Scores of the negative rows. -/
def negScores (m : List MergedRow) : List ℚ :=
  (m.filter fun r => r.late_delivery ≠ 1).map fun r => r.p_late

/-- True positives at score threshold `v` (predict positive when `p_late ≥ v`). -/
def tpAt (m : List MergedRow) (v : ℚ) : ℕ :=
  (m.filter fun r => r.late_delivery = 1 ∧ v ≤ r.p_late).length

/-- False positives at score threshold `v`. -/
def fpAt (m : List MergedRow) (v : ℚ) : ℕ :=
  (m.filter fun r => r.late_delivery ≠ 1 ∧ v ≤ r.p_late).length

/-- Number of positive rows whose score is exactly `v`. -/
def posEq (m : List MergedRow) (v : ℚ) : ℕ :=
  (m.filter fun r => r.late_delivery = 1 ∧ r.p_late = v).length

/-- Precision of the `p_late ≥ v` classifier. -/
def precAt (m : List MergedRow) (v : ℚ) : ℚ :=
  (tpAt m v : ℚ) / ((tpAt m v : ℚ) + (fpAt m v : ℚ))

/-- `average_precision_score(m['late_delivery'], m['p_late'])`: the sum over
distinct score thresholds of precision times the change in recall.  Grouping
the recall increments by threshold value, this is
`(Σ_{v ∈ distinct scores} posEq v · precision v) / #positives`. -/
def pr_auc (m : List MergedRow) : ℚ :=
  (((scores m).dedup).map fun v => (posEq m v : ℚ) * precAt m v).sum /
    ((posScores m).length : ℚ)

/-- Contribution of one positive/negative score pair to the Mann-Whitney
statistic: 1 when the positive outranks the negative, ½ on a tie. -/
def cmpHalf (a b : ℚ) : ℚ :=
  if b < a then 1 else if a = b then 1 / 2 else 0

/-- `roc_auc_score(m['late_delivery'], m['p_late'])` in its Mann-Whitney form:
the probability that a random positive outranks a random negative, ties
counted one half. -/
def roc_auc (m : List MergedRow) : ℚ :=
  ((posScores m).map fun a => ((negScores m).map fun b => cmpHalf a b).sum).sum /
    (((posScores m).length : ℚ) * ((negScores m).length : ℚ))

/-- `f1_score(m['late_delivery'], (m['p_late'] >= thr).astype(int))`:
`2·tp / (2·tp + fp + fn)`, and 0 when no positives are predicted or present
(sklearn's zero-division behavior). -/
def f1At (thr : ℚ) (m : List MergedRow) : ℚ :=
  let tp := tpAt m thr
  let fp := fpAt m thr
  let fn := (m.filter fun r => r.late_delivery = 1 ∧ ¬ thr ≤ r.p_late).length
  if 2 * tp + fp + fn = 0 then 0 else (2 * tp : ℚ) / ((2 * tp : ℚ) + fp + fn)

/-- The merged table with a rescaling `f` applied to every `p_late` score
(the same rows, each score replaced by `f` of it). -/
def mapScores (f : ℚ → ℚ) (m : List MergedRow) : List MergedRow :=
  m.map fun r => ⟨r.order_id, r.order_date, r.promised_date, r.cancelled,
    r.actual_delivery_date, r.late_delivery, f r.p_late⟩

/-- `k = max(1, int(0.2 * len(m)))`.  For every list length `N < 2^53`,
the double-precision product `0.2 * N` truncates to `⌊N / 5⌋`: the stored
double for `0.2` is `0.2·(1 + 2⁻⁵⁴)`, so the rounded product differs from
`N/5` by a relative error below `2⁻⁵²`, never enough to cross an integer
for feasible `N`; hence natural division by 5 is exact here. -/
def topK (m : List MergedRow) : ℕ :=
  max 1 (m.length / 5)

/-- `thr_top20 = m['p_late'].nlargest(k).min()`: the `k`-th largest `p_late`
value, i.e. entry `k-1` of the scores sorted in descending order. -/
def thrTop20 (m : List MergedRow) : ℚ :=
  ((scores m).insertionSort (· ≥ ·)).getD (topK m - 1) 0

/-- The guard under which the metric computations at lines 26-27 of the
script all succeed: sklearn's `average_precision_score` raises on an empty
input and `roc_auc_score` raises when only one class is present in
`y_true`, so the metrics line is printed exactly when both a positive and a
non-positive label occur. -/
def metricsOk (m : List MergedRow) : Bool :=
  (m.any fun r => r.late_delivery = 1) && (m.any fun r => r.late_delivery ≠ 1)

/-- One line of standard output: either `Merged rows: <n>` or the final
metrics dictionary `{'PR_AUC': ..., 'ROC_AUC': ..., 'F1@0.5': ..., 'F1@top20%': ...}`. -/
inductive OutLine where
  | mergedRows : ℕ → OutLine
  | metricsDict : ℚ → ℚ → ℚ → ℚ → OutLine
deriving DecidableEq, Repr

/-- The whole script, from loaded tables to (stdout lines, exited-zero flag).
`predCols` is the header of the predictions CSV; the
`assert set(['order_id','p_late']).issubset(pred.columns)` at line 23 runs
before anything is printed, the `Merged rows` line is printed at line 25,
and the metrics dictionary only after all four metric calls succeed.

A predictions column whose name collides with a non-key column of `df` is
suffixed by the merge (`late_delivery` becomes `late_delivery_x`/`_y`), so
when the predictions header contains `late_delivery` the access
`m['late_delivery']` at line 26 raises a `KeyError`: the merged-rows line
has already been printed, but no metric is computed and the run fails.
The other possible collisions (`order_date`, `promised_date`, `cancelled`,
`actual_delivery_date`) are also suffixed but those names are never
accessed after the merge, so they cannot change the run. -/
def run (po : List PORow) (dl : List DelivRow) (predCols : List String)
    (pred : List PredRow) : List OutLine × Bool :=
  let df := labeledTable po dl
  if "order_id" ∈ predCols ∧ "p_late" ∈ predCols then
    let m := mergeInner df pred
    if "late_delivery" ∈ predCols then
      ([OutLine.mergedRows m.length], false)
    else if metricsOk m then
      ([OutLine.mergedRows m.length,
        OutLine.metricsDict (pr_auc m) (roc_auc m) (f1At (1 / 2) m) (f1At (thrTop20 m) m)],
        true)
    else
      ([OutLine.mergedRows m.length], false)
  else
    ([], false)

/-! ### Column-presence model of the loads and the column accesses

`pd.read_csv(..., parse_dates=cols)` raises only when a listed date column
is absent; it performs no other schema validation.  A later
`df.query('cancelled == 0')` raises an `UndefinedVariableError` when the
frame has no `cancelled` column, and `df['late_delivery']` raises a
`KeyError` when that column is absent.  This level models only which
columns exist, to locate where a run with a malformed header fails. -/

/-- A CSV header. -/
structure CsvCols where
  cols : List String
deriving DecidableEq, Repr

/-- `pd.read_csv(args.po, parse_dates=['order_date','promised_date'])`:
fails only when a date column to parse is missing. -/
def readPOCols (f : CsvCols) : Except String CsvCols :=
  if "order_date" ∈ f.cols ∧ "promised_date" ∈ f.cols then Except.ok f
  else Except.error "ValueError: missing column provided to parse_dates"

/-- `pd.read_csv(args.labels, parse_dates=['actual_delivery_date'])`. -/
def readLabelsCols (f : CsvCols) : Except String CsvCols :=
  if "actual_delivery_date" ∈ f.cols then Except.ok f
  else Except.error "ValueError: missing column provided to parse_dates"

/-- The column-level pipeline of lines 16-21 of the script: the two loads,
the merge on `order_id`, the `cancelled == 0` query and the
`late_delivery` fill, each failing when a column it references is absent. -/
def runCols (po labels : CsvCols) : Except String (List String) := do
  let p ← readPOCols po
  let d ← readLabelsCols labels
  let joined ←
    if "order_id" ∈ p.cols ∧ "order_id" ∈ d.cols then pure (p.cols ++ d.cols)
    else Except.error "KeyError: order_id"
  let filtered ←
    if "cancelled" ∈ joined then pure joined
    else Except.error "UndefinedVariableError: name cancelled is not defined"
  if "late_delivery" ∈ filtered then pure filtered
  else Except.error "KeyError: late_delivery"

/-! ### Specification-side definitions -/

/-- All pairs of a labeled-table row and a prediction row. -/
def allPairs (df : List JoinedRow) (pred : List PredRow) : List (JoinedRow × PredRow) :=
  df.flatMap fun r => pred.map fun p => (r, p)

/-- Written from the spec's words: the cardinality of the inner join on
`order_id` between the filtered left-join table and the predictions table,
as the number of matching row pairs. -/
def specInnerJoinCard (df : List JoinedRow) (pred : List PredRow) : ℕ :=
  ((allPairs df pred).filter fun q => q.1.order_id = q.2.order_id).length

/-! ### Helper lemmas -/

/-- Filtering after a map is mapping after filtering the pulled-back predicate. -/
theorem filter_map_comm {α β : Type} (g : α → β) (p : β → Bool) (l : List α) :
    (l.map g).filter p = (l.filter fun a => p (g a)).map g := by
  induction l with
  | nil => rfl
  | cons a t ih =>
      simp only [List.map_cons, List.filter_cons]
      cases h : p (g a) <;> simp [h, ih]

/-- Length form of `filter_map_comm`. -/
theorem length_filter_map_comm {α β : Type} (g : α → β) (p : β → Bool) (l : List α) :
    ((l.map g).filter p).length = (l.filter fun a => p (g a)).length := by
  rw [filter_map_comm, List.length_map]

/-- The inner `flatMap` of the merge contributes one row per matching prediction. -/
theorem mergeInner_length (df : List LabeledRow) (pred : List PredRow) :
    (mergeInner df pred).length =
      (df.map fun r => (pred.filter fun p => p.order_id = r.order_id).length).sum := by
  induction df with
  | nil => rfl
  | cons r t ih =>
      simp only [mergeInner, List.flatMap_cons, List.length_append, List.length_map,
        List.map_cons, List.sum_cons] at *
      omega

/-- The pair-counting form of the spec-side inner-join cardinality. -/
theorem specInnerJoinCard_eq_sum (df : List JoinedRow) (pred : List PredRow) :
    specInnerJoinCard df pred =
      (df.map fun r => (pred.filter fun p => p.order_id = r.order_id).length).sum := by
  induction df with
  | nil => rfl
  | cons r t ih =>
      simp only [specInnerJoinCard, allPairs, List.flatMap_cons, List.filter_append,
        List.length_append, List.map_cons, List.sum_cons] at *
      rw [ih, length_filter_map_comm]
      congr 1
      refine congrArg List.length (List.filter_congr fun p _ => ?_)
      simp [eq_comm]

/-! ### Claim theorems -/

/-- C1: for every triple of input tables (with a well-formed predictions
header), the integer printed after `Merged rows: ` equals the cardinality of
the inner join on `order_id` between the predictions table and the
cancelled-filtered left join of purchase orders with deliveries. -/
theorem c1_merged_rows_printed (po : List PORow) (dl : List DelivRow)
    (predCols : List String) (pred : List PredRow)
    (h1 : "order_id" ∈ predCols) (h2 : "p_late" ∈ predCols) :
    (run po dl predCols pred).1.head? =
      some (OutLine.mergedRows
        (specInnerJoinCard (filterCancelled (leftJoin po dl)) pred)) := by
  have hlen : (mergeInner (labeledTable po dl) pred).length
      = specInnerJoinCard (filterCancelled (leftJoin po dl)) pred := by
    rw [mergeInner_length, specInnerJoinCard_eq_sum, labeledTable, fillLabel, List.map_map]
    rfl
  by_cases hl : "late_delivery" ∈ predCols <;>
    by_cases hm : metricsOk (mergeInner (labeledTable po dl) pred) <;>
      simp [run, h1, h2, hl, hm, hlen]

/-- Witness for C1 at a concrete input. -/
theorem c1_merged_rows_printed_witness :
    ("order_id" ∈ ["order_id", "p_late"] ∧ "p_late" ∈ ["order_id", "p_late"]) ∧
      (run [⟨1, 0, 0, some 0⟩] [⟨1, some 5, some 1⟩] ["order_id", "p_late"]
          [⟨1, 9 / 10⟩, ⟨2, 1 / 2⟩]).1.head? =
        some (OutLine.mergedRows (specInnerJoinCard
          (filterCancelled (leftJoin [⟨1, 0, 0, some 0⟩] [⟨1, some 5, some 1⟩]))
          [⟨1, 9 / 10⟩, ⟨2, 1 / 2⟩])) :=
  ⟨⟨by decide, by decide⟩, c1_merged_rows_printed _ _ _ _ (by decide) (by decide)⟩

/-- C3 counterexample: the claim says a row with a null `cancelled` cell is
kept, and that only rows with `cancelled == 1` are removed; in fact the
`cancelled == 0` filter drops a null-cancelled row and also drops a row with
`cancelled == 2`. -/
theorem c3_null_cancelled_counterexample :
    (⟨1, 0, 0, none, none, none⟩ : JoinedRow) ∉
        filterCancelled [⟨1, 0, 0, none, none, none⟩] ∧
      (⟨2, 0, 0, some 2, none, none⟩ : JoinedRow) ∉
        filterCancelled [⟨2, 0, 0, some 2, none, none⟩] := by
  decide

/-- C3 (amended): the filter keeps exactly the rows whose `cancelled` value
equals 0; rows whose `cancelled` is 1, null/absent, or any other value are
removed. -/
theorem c3_filter_keeps_exactly_zero (df : List JoinedRow) (r : JoinedRow) :
    r ∈ filterCancelled df ↔ r ∈ df ∧ r.cancelled = some 0 := by
  simp [filterCancelled]

/-- A row of the left join carries either a null label or the label of some
delivery row. -/
theorem late_delivery_of_mem_leftJoin {po : List PORow} {dl : List DelivRow}
    {r : JoinedRow} (h : r ∈ leftJoin po dl) :
    r.late_delivery = none ∨ ∃ d ∈ dl, r.late_delivery = d.late_delivery := by
  simp only [leftJoin, List.mem_flatMap] at h
  obtain ⟨p, _, hr⟩ := h
  cases hfil : dl.filter fun d => d.order_id = p.order_id with
  | nil =>
      rw [hfil] at hr
      simp only [List.mem_singleton] at hr
      subst hr
      exact Or.inl rfl
  | cons d ds =>
      rw [hfil] at hr
      simp only [List.mem_map] at hr
      obtain ⟨d', hd', rfl⟩ := hr
      refine Or.inr ⟨d', List.mem_of_mem_filter (hfil ▸ hd'), rfl⟩

/-- A labeled row comes from some joined row, with the filled label. -/
theorem late_delivery_of_mem_fillLabel {df : List JoinedRow} {lr : LabeledRow}
    (h : lr ∈ fillLabel df) :
    ∃ j ∈ df, lr.late_delivery = astypeInt (j.late_delivery.getD 0) := by
  simp only [fillLabel, List.mem_map] at h
  obtain ⟨j, hj, rfl⟩ := h
  exact ⟨j, hj, rfl⟩

/-- A merged row carries the label of some labeled row. -/
theorem late_delivery_of_mem_mergeInner {df : List LabeledRow} {pred : List PredRow}
    {r : MergedRow} (h : r ∈ mergeInner df pred) :
    ∃ lr ∈ df, r.late_delivery = lr.late_delivery := by
  simp only [mergeInner, List.mem_flatMap, List.mem_map] at h
  obtain ⟨lr, hlr, _, _, rfl⟩ := h
  exact ⟨lr, hlr, rfl⟩

/-- C4: when the deliveries table carries only null, 0 or 1 in its
`late_delivery` column (as the data model prescribes), every row of the
merged table has a defined `late_delivery` label equal to 0 or 1 — a label
missing after the left join having been coerced to 0 by
`fillna(0).astype(int)`.  (In the embedding `late_delivery : ℤ` and
`p_late : ℚ` are total fields of a merged row, so neither column can hold a
null.) -/
theorem c4_merged_labels_binary (po : List PORow) (dl : List DelivRow)
    (pred : List PredRow)
    (hdl : ∀ d ∈ dl, d.late_delivery = none ∨ d.late_delivery = some 0 ∨
      d.late_delivery = some 1) :
    ∀ r ∈ mergedTable po dl pred, r.late_delivery = 0 ∨ r.late_delivery = 1 := by
  intro r hr
  obtain ⟨lr, hlr, hre⟩ := late_delivery_of_mem_mergeInner hr
  obtain ⟨j, hj, hle⟩ := late_delivery_of_mem_fillLabel hlr
  rcases late_delivery_of_mem_leftJoin (List.mem_of_mem_filter hj) with hnone | ⟨d, hd, hdd⟩
  · rw [hre, hle, hnone]
    exact Or.inl (by decide)
  · rcases hdl d hd with h0 | h0 | h0 <;> rw [hre, hle, hdd, h0]
    · exact Or.inl (by decide)
    · exact Or.inl (by decide)
    · exact Or.inr (by decide)

/-- Witness for C4 at a concrete input. -/
theorem c4_merged_labels_binary_witness :
    (∀ d ∈ [⟨1, some 5, some 1⟩, (⟨2, none, none⟩ : DelivRow)],
        d.late_delivery = none ∨ d.late_delivery = some 0 ∨ d.late_delivery = some 1) ∧
      ∀ r ∈ mergedTable [⟨1, 0, 0, some 0⟩, ⟨2, 0, 0, some 0⟩]
          [⟨1, some 5, some 1⟩, ⟨2, none, none⟩] [⟨1, 9 / 10⟩, ⟨2, 1 / 10⟩],
        r.late_delivery = 0 ∨ r.late_delivery = 1 :=
  ⟨by decide, c4_merged_labels_binary _ _ _ (by decide)⟩

/-- C5 counterexample: the claim says every predictions file containing
`order_id` and `p_late` has its extra columns ignored.  An extra column
named `late_delivery` passes the assert but collides in the merge (suffixed
to `late_delivery_x`/`_y`), so `m['late_delivery']` at line 26 raises a
`KeyError`: on a concrete input whose clean run succeeds, the same input
with the extra column fails after the merged-rows line. -/
theorem c5_extra_column_counterexample :
    (run [⟨1, 0, 0, some 0⟩, ⟨2, 0, 0, some 0⟩]
        [⟨1, some 5, some 1⟩, ⟨2, some 6, some 0⟩]
        ["order_id", "p_late", "late_delivery"] [⟨1, 9 / 10⟩, ⟨2, 1 / 10⟩]).2 = false ∧
      (run [⟨1, 0, 0, some 0⟩, ⟨2, 0, 0, some 0⟩]
        [⟨1, some 5, some 1⟩, ⟨2, some 6, some 0⟩]
        ["order_id", "p_late"] [⟨1, 9 / 10⟩, ⟨2, 1 / 10⟩]).2 = true :=
  ⟨rfl, rfl⟩

/-- C5 (amended): a predictions header lacking `order_id` or `p_late` makes
the run fail with nothing printed (the assert precedes both prints and every
metric call); a header containing both passes the check, and extra columns
that do not collide with the merged frame's `late_delivery` column do not
change the run at all — but an extra `late_delivery` column, although it
passes the assert, is suffixed by the merge and makes the label access raise
a `KeyError`, so the run prints the merged-rows line and then fails without
computing any metric. -/
theorem c5_pred_schema_check (po : List PORow) (dl : List DelivRow)
    (predCols : List String) (pred : List PredRow) :
    (("order_id" ∉ predCols ∨ "p_late" ∉ predCols) →
        run po dl predCols pred = ([], false)) ∧
      ("order_id" ∈ predCols → "p_late" ∈ predCols → "late_delivery" ∉ predCols →
        run po dl predCols pred = run po dl ["order_id", "p_late"] pred) ∧
      ("order_id" ∈ predCols → "p_late" ∈ predCols → "late_delivery" ∈ predCols →
        run po dl predCols pred =
          ([OutLine.mergedRows (mergedTable po dl pred).length], false)) := by
  have hbase : "order_id" ∈ ["order_id", "p_late"] ∧ "p_late" ∈ ["order_id", "p_late"] ∧
      "late_delivery" ∉ ["order_id", "p_late"] := by decide
  refine ⟨?_, ?_, ?_⟩
  · intro h
    have hno : ¬("order_id" ∈ predCols ∧ "p_late" ∈ predCols) := by tauto
    simp [run, hno]
  · intro h1 h2 hl
    simp [run, h1, h2, hl, hbase.1, hbase.2.1, hbase.2.2]
  · intro h1 h2 hl
    simp [run, h1, h2, hl, mergedTable]

/-- Witness for C5 at concrete headers: a header missing `p_late`, a header
with a harmless extra column, and a header with a colliding extra column. -/
theorem c5_pred_schema_check_witness :
    ("order_id" ∉ (["order_id"] : List String) ∨ "p_late" ∉ (["order_id"] : List String)) ∧
      run [] [] ["order_id"] [] = ([], false) ∧
      run [] [] ["order_id", "p_late", "extra"] [] = run [] [] ["order_id", "p_late"] [] ∧
      run [] [] ["order_id", "p_late", "late_delivery"] [] =
        ([OutLine.mergedRows (mergedTable [] [] []).length], false) :=
  ⟨Or.inr (by decide),
    (c5_pred_schema_check [] [] ["order_id"] []).1 (Or.inr (by decide)),
    (c5_pred_schema_check [] [] ["order_id", "p_late", "extra"] []).2.1
      (by decide) (by decide) (by decide),
    (c5_pred_schema_check [] [] ["order_id", "p_late", "late_delivery"] []).2.2
      (by decide) (by decide) (by decide)⟩

/-- C6: when the merged table is empty, the metric computation fails (sklearn
raises on an empty input), the run exits non-zero, and the only line printed
is `Merged rows: 0` — no default metric values are substituted and the
metrics dictionary line never appears. -/
theorem c6_empty_merge_fails (po : List PORow) (dl : List DelivRow)
    (predCols : List String) (pred : List PredRow)
    (h1 : "order_id" ∈ predCols) (h2 : "p_late" ∈ predCols)
    (hempty : mergedTable po dl pred = []) :
    run po dl predCols pred = ([OutLine.mergedRows 0], false) := by
  have he : mergeInner (labeledTable po dl) pred = [] := hempty
  by_cases hl : "late_delivery" ∈ predCols <;> simp [run, h1, h2, hl, he, metricsOk]

/-- Witness for C6: predictions whose `order_id`s do not occur among the
purchase orders give an empty merge. -/
theorem c6_empty_merge_fails_witness :
    ("order_id" ∈ ["order_id", "p_late"] ∧ "p_late" ∈ ["order_id", "p_late"]) ∧
      mergedTable [⟨1, 0, 0, some 0⟩] [] [⟨2, 1 / 2⟩] = [] ∧
      run [⟨1, 0, 0, some 0⟩] [] ["order_id", "p_late"] [⟨2, 1 / 2⟩] =
        ([OutLine.mergedRows 0], false) :=
  ⟨⟨by decide, by decide⟩, by decide,
    c6_empty_merge_fails _ _ _ _ (by decide) (by decide) (by decide)⟩

/-- C9: on every run that passes the predictions-schema assert, the first
line printed is `Merged rows: <N>` with `N` the merged row count — it is
emitted before any metric is computed — and on an empty merge the run prints
exactly `Merged rows: 0` and then fails, so a failing run still produces its
first output line. -/
theorem c9_merged_rows_printed_first (po : List PORow) (dl : List DelivRow)
    (predCols : List String) (pred : List PredRow)
    (h1 : "order_id" ∈ predCols) (h2 : "p_late" ∈ predCols) :
    (run po dl predCols pred).1.head? =
        some (OutLine.mergedRows (mergedTable po dl pred).length) ∧
      (mergedTable po dl pred = [] →
        run po dl predCols pred = ([OutLine.mergedRows 0], false)) := by
  constructor
  · by_cases hl : "late_delivery" ∈ predCols <;>
      by_cases hm : metricsOk (mergeInner (labeledTable po dl) pred) <;>
        simp [run, h1, h2, hl, hm, mergedTable]
  · intro he
    have he' : mergeInner (labeledTable po dl) pred = [] := he
    by_cases hl : "late_delivery" ∈ predCols <;>
      simp [run, h1, h2, hl, he', metricsOk]

/-- Witness for C9 at a concrete input (with a nonempty and an empty merge). -/
theorem c9_merged_rows_printed_first_witness :
    ("order_id" ∈ ["order_id", "p_late"] ∧ "p_late" ∈ ["order_id", "p_late"]) ∧
      (run [⟨1, 0, 0, some 0⟩] [⟨1, some 5, some 1⟩] ["order_id", "p_late"]
          [⟨1, 9 / 10⟩]).1.head? =
        some (OutLine.mergedRows
          (mergedTable [⟨1, 0, 0, some 0⟩] [⟨1, some 5, some 1⟩] [⟨1, 9 / 10⟩]).length) :=
  ⟨⟨by decide, by decide⟩,
    (c9_merged_rows_printed_first _ _ _ _ (by decide) (by decide)).1⟩

/-- C10: no schema check exists for the purchase-orders or labels files
beyond date parsing: a purchase-orders file with its date columns loads even
without `cancelled`, a labels file loads even without `late_delivery`, and
the run then fails only later — at the `cancelled == 0` query, resp. at the
`late_delivery` fill — unlike the predictions file, which the script checks
explicitly right after loading. -/
theorem c10_no_schema_check_on_po_labels :
    (∀ pc : CsvCols, "order_date" ∈ pc.cols → "promised_date" ∈ pc.cols →
        readPOCols pc = Except.ok pc) ∧
      (∀ lc : CsvCols, "actual_delivery_date" ∈ lc.cols →
        readLabelsCols lc = Except.ok lc) ∧
      runCols ⟨["order_id", "order_date", "promised_date"]⟩
          ⟨["order_id", "actual_delivery_date", "late_delivery"]⟩ =
        Except.error "UndefinedVariableError: name cancelled is not defined" ∧
      runCols ⟨["order_id", "order_date", "promised_date", "cancelled"]⟩
          ⟨["order_id", "actual_delivery_date"]⟩ =
        Except.error "KeyError: late_delivery" := by
  refine ⟨?_, ?_, rfl, rfl⟩
  · intro pc hp1 hp2
    simp [readPOCols, hp1, hp2]
  · intro lc hl
    simp [readLabelsCols, hl]

/-- Witness for C10 at concrete headers. -/
theorem c10_no_schema_check_on_po_labels_witness :
    readPOCols ⟨["order_id", "order_date", "promised_date"]⟩ =
        Except.ok ⟨["order_id", "order_date", "promised_date"]⟩ ∧
      readLabelsCols ⟨["order_id", "actual_delivery_date"]⟩ =
        Except.ok ⟨["order_id", "actual_delivery_date"]⟩ :=
  ⟨c10_no_schema_check_on_po_labels.1 _ (by decide) (by decide),
    c10_no_schema_check_on_po_labels.2.1 _ (by decide)⟩

/-- The count of elements at least the k-th largest entry of a descending
sorted list is at least k, and equals k when the k-th largest value occurs
exactly once. -/
theorem kth_largest_count (L : List ℚ) (hs : L.Sorted (· ≥ ·)) (k : ℕ)
    (hk1 : 1 ≤ k) (hkN : k ≤ L.length) :
    k ≤ (L.filter fun v => L.getD (k - 1) 0 ≤ v).length ∧
      ((L.filter fun v => v = L.getD (k - 1) 0).length = 1 →
        (L.filter fun v => L.getD (k - 1) 0 ≤ v).length = k) := by
  have hidx : k - 1 < L.length := by omega
  have hthr : L.getD (k - 1) 0 = L.get ⟨k - 1, hidx⟩ := by
    rw [List.getD_eq_getElem?_getD, List.getElem?_eq_getElem hidx]; rfl
  set thr := L.getD (k - 1) 0 with hthrdef
  -- every element of the first k entries is at least thr
  have htake : ∀ x ∈ L.take k, thr ≤ x := by
    intro x hx
    obtain ⟨i, hi, rfl⟩ := List.getElem_of_mem hx
    have hik : i < k := by
      have := hi; rw [List.length_take] at this; omega
    have hil : i < L.length := by omega
    have : (L.take k)[i] = L.get ⟨i, hil⟩ := by simp [List.getElem_take]
    rw [this, hthr]
    exact hs.rel_get_of_le (a := ⟨i, hil⟩) (b := ⟨k - 1, hidx⟩) (by simp; omega)
  have htakelen : (L.take k).length = k := by rw [List.length_take]; omega
  have hfiltake : (L.take k).filter (fun v => decide (thr ≤ v)) = L.take k :=
    List.filter_eq_self.mpr fun a ha => by simpa using htake a ha
  have hsplit : (L.filter fun v => thr ≤ v).length =
      k + ((L.drop k).filter fun v => thr ≤ v).length := by
    conv_lhs => rw [← List.take_append_drop k L]
    rw [List.filter_append, List.length_append, hfiltake, htakelen]
  constructor
  · rw [hsplit]; omega
  · intro hone
    -- thr occurs among the first k entries
    have hmemtake : thr ∈ L.take k := by
      have hkk : k - 1 < (L.take k).length := by omega
      have : (L.take k).get ⟨k - 1, hkk⟩ = L.get ⟨k - 1, hidx⟩ := by
        simp [List.getElem_take]
      rw [hthr, ← this]
      exact List.get_mem _ _ _
    have honetake : 1 ≤ ((L.take k).filter fun v => v = thr).length := by
      have : thr ∈ (L.take k).filter fun v => v = thr :=
        List.mem_filter.mpr ⟨hmemtake, by simp⟩
      exact List.length_pos.mpr (List.ne_nil_of_mem this)
    have honesplit : ((L.take k).filter fun v => v = thr).length +
        ((L.drop k).filter fun v => v = thr).length = 1 := by
      rw [← List.length_append, ← List.filter_append, List.take_append_drop]
      exact hone
    have hdropne : ∀ y ∈ L.drop k, ¬ y = thr := by
      intro y hy hyeq
      have h0 : ((L.drop k).filter fun v => v = thr).length = 0 := by omega
      have : y ∈ (L.drop k).filter fun v => v = thr :=
        List.mem_filter.mpr ⟨hy, by simp [hyeq]⟩
      rw [List.length_eq_zero] at h0
      simp [h0] at this
    have hdroplt : ∀ y ∈ L.drop k, ¬ thr ≤ y := by
      intro y hy
      have hle : thr ≥ y := hs.rel_of_mem_take_of_mem_drop hmemtake hy
      have hne := hdropne y hy
      intro hc
      exact hne (le_antisymm hle hc)
    have hfildrop : (L.drop k).filter (fun v => decide (thr ≤ v)) = [] := by
      rw [List.filter_eq_nil_iff]
      intro a ha
      simpa using hdroplt a ha
    rw [hsplit, hfildrop]
    simp


/-- Counts over the merged table equal counts over the sorted score list. -/
theorem count_scores_sorted (m : List MergedRow) (p : ℚ → Bool) :
    ((((scores m).insertionSort (· ≥ ·)).filter p).length) =
      (m.filter fun r => p r.p_late).length := by
  rw [← List.countP_eq_length_filter, (List.perm_insertionSort _ _).countP_eq p,
    List.countP_eq_length_filter]
  exact length_filter_map_comm (fun r => r.p_late) p m

/-- C2: for a nonempty merged table, with `k = max(1, ⌊0.2·N⌋)` and
`thr_top20` the `k`-th largest `p_late` value, the rows flagged positive are
exactly those with `p_late ≥ thr_top20`; their number is always at least
`k`, and equals `k` whenever no two rows share the boundary score (i.e. the
boundary score occurs exactly once). -/
theorem c2_top20_threshold (m : List MergedRow) (hm : m ≠ []) :
    topK m ≤ (m.filter fun r => thrTop20 m ≤ r.p_late).length ∧
      ((m.filter fun r => r.p_late = thrTop20 m).length = 1 →
        (m.filter fun r => thrTop20 m ≤ r.p_late).length = topK m) := by
  have hlen : ((scores m).insertionSort (· ≥ ·)).length = m.length := by
    rw [(List.perm_insertionSort _ _).length_eq]
    simp [scores]
  have hN : 1 ≤ m.length := List.length_pos.mpr hm
  have hk1 : 1 ≤ topK m := le_max_left _ _
  have hkN : topK m ≤ ((scores m).insertionSort (· ≥ ·)).length := by
    rw [hlen]
    have := Nat.div_le_self m.length 5
    simp only [topK]
    omega
  have hs : ((scores m).insertionSort (· ≥ ·)).Sorted (· ≥ ·) :=
    List.sorted_insertionSort (· ≥ ·) (scores m)
  have hmain := kth_largest_count _ hs (topK m) hk1 hkN
  have hge := count_scores_sorted m fun v => thrTop20 m ≤ v
  have heq := count_scores_sorted m fun v => v = thrTop20 m
  simp only [thrTop20] at hge heq ⊢
  constructor
  · rw [← hge]
    exact hmain.1
  · intro hone
    rw [← hge]
    exact hmain.2 (by rw [heq]; exact hone)

/-- Witness for C2 at a concrete five-row table with distinct scores
(`k = 1`, boundary score unique). -/
theorem c2_top20_threshold_witness :
    (([⟨1, 0, 0, some 0, none, 1, 9 / 10⟩, ⟨2, 0, 0, some 0, none, 0, 7 / 10⟩,
        ⟨3, 0, 0, some 0, none, 0, 5 / 10⟩, ⟨4, 0, 0, some 0, none, 1, 3 / 10⟩,
        ⟨5, 0, 0, some 0, none, 0, 1 / 10⟩] : List MergedRow) ≠ []) ∧
      (let mW : List MergedRow :=
        [⟨1, 0, 0, some 0, none, 1, 9 / 10⟩, ⟨2, 0, 0, some 0, none, 0, 7 / 10⟩,
          ⟨3, 0, 0, some 0, none, 0, 5 / 10⟩, ⟨4, 0, 0, some 0, none, 1, 3 / 10⟩,
          ⟨5, 0, 0, some 0, none, 0, 1 / 10⟩]
       topK mW ≤ (mW.filter fun r => thrTop20 mW ≤ r.p_late).length ∧
        ((mW.filter fun r => r.p_late = thrTop20 mW).length = 1 →
          (mW.filter fun r => thrTop20 mW ≤ r.p_late).length = topK mW)) :=
  ⟨by decide, c2_top20_threshold _ (by decide)⟩

/-! ### Rank invariance of the AUC metrics (C7) -/

theorem scores_mapScores (f : ℚ → ℚ) (m : List MergedRow) :
    scores (mapScores f m) = (scores m).map f := by
  simp only [scores, mapScores, List.map_map]
  rfl

theorem posScores_mapScores (f : ℚ → ℚ) (m : List MergedRow) :
    posScores (mapScores f m) = (posScores m).map f := by
  unfold posScores mapScores
  rw [filter_map_comm, List.map_map, List.map_map]
  rfl

theorem negScores_mapScores (f : ℚ → ℚ) (m : List MergedRow) :
    negScores (mapScores f m) = (negScores m).map f := by
  unfold negScores mapScores
  rw [filter_map_comm, List.map_map, List.map_map]
  rfl

theorem dedup_map_of_injective (f : ℚ → ℚ) (hf : Function.Injective f) (l : List ℚ) :
    (l.map f).dedup = l.dedup.map f := by
  induction l with
  | nil => rfl
  | cons a t ih =>
      by_cases h : a ∈ t
      · rw [List.map_cons, List.dedup_cons_of_mem (List.mem_map_of_mem f h),
          List.dedup_cons_of_mem h, ih]
      · rw [List.map_cons, List.dedup_cons_of_not_mem, List.dedup_cons_of_not_mem h,
          List.map_cons, ih]
        intro hc
        exact h ((List.mem_map_of_injective hf).mp hc)

theorem tpAt_mapScores (f : ℚ → ℚ) (hf : StrictMono f) (m : List MergedRow) (v : ℚ) :
    tpAt (mapScores f m) (f v) = tpAt m v := by
  unfold tpAt mapScores
  rw [length_filter_map_comm]
  exact congrArg List.length (List.filter_congr fun a _ => by simp [hf.le_iff_le])

theorem fpAt_mapScores (f : ℚ → ℚ) (hf : StrictMono f) (m : List MergedRow) (v : ℚ) :
    fpAt (mapScores f m) (f v) = fpAt m v := by
  unfold fpAt mapScores
  rw [length_filter_map_comm]
  exact congrArg List.length (List.filter_congr fun a _ => by simp [hf.le_iff_le])

theorem posEq_mapScores (f : ℚ → ℚ) (hf : StrictMono f) (m : List MergedRow) (v : ℚ) :
    posEq (mapScores f m) (f v) = posEq m v := by
  unfold posEq mapScores
  rw [length_filter_map_comm]
  exact congrArg List.length (List.filter_congr fun a _ => by simp [hf.injective.eq_iff])

theorem precAt_mapScores (f : ℚ → ℚ) (hf : StrictMono f) (m : List MergedRow) (v : ℚ) :
    precAt (mapScores f m) (f v) = precAt m v := by
  unfold precAt
  rw [tpAt_mapScores f hf, fpAt_mapScores f hf]

theorem pr_auc_mapScores (f : ℚ → ℚ) (hf : StrictMono f) (m : List MergedRow) :
    pr_auc (mapScores f m) = pr_auc m := by
  unfold pr_auc
  rw [scores_mapScores, dedup_map_of_injective f hf.injective, List.map_map,
    posScores_mapScores, List.length_map]
  have hfun : ((fun v => (posEq (mapScores f m) v : ℚ) * precAt (mapScores f m) v) ∘ f) =
      fun v => (posEq m v : ℚ) * precAt m v := by
    funext v
    simp only [Function.comp]
    rw [posEq_mapScores f hf, precAt_mapScores f hf]
  rw [hfun]

theorem roc_auc_mapScores (f : ℚ → ℚ) (hf : StrictMono f) (m : List MergedRow) :
    roc_auc (mapScores f m) = roc_auc m := by
  unfold roc_auc
  rw [posScores_mapScores, negScores_mapScores, List.length_map, List.length_map,
    List.map_map]
  have hfun : ((fun a => (((negScores m).map f).map fun b => cmpHalf a b).sum) ∘ f) =
      fun a => ((negScores m).map fun b => cmpHalf a b).sum := by
    funext a
    simp only [Function.comp]
    rw [List.map_map]
    have hcmp : ((fun b => cmpHalf (f a) b) ∘ f) = fun b => cmpHalf a b := by
      funext b
      simp only [Function.comp]
      simp [cmpHalf, hf.lt_iff_lt, hf.injective.eq_iff]
    rw [hcmp]
  rw [hfun]

/-- C7: applying any strictly increasing rescaling to every `p_late` score
(in particular multiplying by a strictly positive constant) leaves PR-AUC
and ROC-AUC unchanged, while there is an input on which such a rescaling
changes F1@0.5. -/
theorem c7_rank_metrics_invariant :
    (∀ (m : List MergedRow) (f : ℚ → ℚ), StrictMono f →
        pr_auc (mapScores f m) = pr_auc m ∧ roc_auc (mapScores f m) = roc_auc m) ∧
      ∃ (m : List MergedRow) (c : ℚ), 0 < c ∧
        f1At (1 / 2) (mapScores (fun x => c * x) m) ≠ f1At (1 / 2) m := by
  refine ⟨fun m f hf => ⟨pr_auc_mapScores f hf m, roc_auc_mapScores f hf m⟩,
    ⟨[⟨1, 0, 0, some 0, none, 1, 1 / 2⟩], 1 / 2, by norm_num, ?_⟩⟩
  have h1 : f1At (1 / 2) [(⟨1, 0, 0, some 0, none, 1, 1 / 2⟩ : MergedRow)] = 1 := by
    norm_num [f1At, tpAt, fpAt]
  have h0 : f1At (1 / 2)
      (mapScores (fun x => 1 / 2 * x) [(⟨1, 0, 0, some 0, none, 1, 1 / 2⟩ : MergedRow)]) = 0 := by
    norm_num [f1At, tpAt, fpAt, mapScores]
  rw [h0, h1]
  norm_num

/-- Witness for C7's universally quantified part at a concrete strictly
increasing map and table. -/
theorem c7_rank_metrics_invariant_witness :
    StrictMono (fun x : ℚ => x + 1) ∧
      pr_auc (mapScores (fun x => x + 1)
          [⟨1, 0, 0, some 0, none, 1, 3 / 4⟩, ⟨2, 0, 0, some 0, none, 0, 1 / 4⟩]) =
        pr_auc [⟨1, 0, 0, some 0, none, 1, 3 / 4⟩, ⟨2, 0, 0, some 0, none, 0, 1 / 4⟩] ∧
      roc_auc (mapScores (fun x => x + 1)
          [⟨1, 0, 0, some 0, none, 1, 3 / 4⟩, ⟨2, 0, 0, some 0, none, 0, 1 / 4⟩]) =
        roc_auc [⟨1, 0, 0, some 0, none, 1, 3 / 4⟩, ⟨2, 0, 0, some 0, none, 0, 1 / 4⟩] := by
  have hmono : StrictMono (fun x : ℚ => x + 1) := fun a b h => by simpa
  exact ⟨hmono, (c7_rank_metrics_invariant.1 _ _ hmono).1,
    (c7_rank_metrics_invariant.1 _ _ hmono).2⟩

/-- C8: the cancelled-filter is idempotent: applying it twice yields exactly
the same row list as applying it once. -/
theorem c8_filter_idempotent (df : List JoinedRow) :
    filterCancelled (filterCancelled df) = filterCancelled df := by
  simp [filterCancelled, List.filter_filter]

end Autograde
